import Mathlib

/-!
Verification of the Perfetto trace-export utilities
(src/megakernels/scripts/perfetto_utils.py).

The Python module is embedded shallowly: tensors become a shape-plus-data
structure with checked indexing, Python floats become rationals, the
filesystem becomes a partial map from paths to file data, and every
Python exception becomes an explicit error value.
-/

namespace Perfetto

/-- JSON values as produced by the json module: null, booleans, numbers,
strings, arrays and objects (objects keep their key order, as Python
dicts preserve insertion order). -/
inductive Json where
  | null : Json
  | boolean (b : Bool) : Json
  | num (q : ℚ) : Json
  | str (s : String) : Json
  | arr (elems : List Json) : Json
  | obj (fields : List (String × Json)) : Json

/-- Error values standing for the Python exceptions the module can raise,
plus the ShapeMismatch kind that the specification postulates. -/
inductive TraceError where
  | UnknownWorker (worker : String) : TraceError
  | ShapeMismatch : TraceError
  | IndexError : TraceError
  | ParseError (path : String) : TraceError
  | TypeError : TraceError
  | IOError (path : String) : TraceError
  | FileNotFound (path : String) : TraceError
deriving DecidableEq

/-- Decidable equality for Except results, so concrete runs of the embedded
functions can be checked by evaluation. -/
def exceptDecEq {ε α : Type} [DecidableEq ε] [DecidableEq α] :
    (x y : Except ε α) → Decidable (x = y)
  | Except.ok a, Except.ok b =>
    if h : a = b then isTrue (by rw [h])
    else isFalse (fun hh => h (by injection hh))
  | Except.ok _, Except.error _ => isFalse (fun hh => Except.noConfusion hh)
  | Except.error _, Except.ok _ => isFalse (fun hh => Except.noConfusion hh)
  | Except.error e, Except.error f =>
    if h : e = f then isTrue (by rw [h])
    else isFalse (fun hh => h (by injection hh))

instance {ε α : Type} [DecidableEq ε] [DecidableEq α] : DecidableEq (Except ε α) :=
  exceptDecEq

/-- Event id TEVENT_CONTROLLER_START from the source. -/
def TEVENT_CONTROLLER_START : Nat := 0

/-- Event id TEVENT_IFETCH_DONE from the source. -/
def TEVENT_IFETCH_DONE : Nat := 1

/-- Event id TEVENT_PAGE_ALLOC_DONE from the source. -/
def TEVENT_PAGE_ALLOC_DONE : Nat := 2

/-- Event id TEVENT_SEMS_SETUP from the source. -/
def TEVENT_SEMS_SETUP : Nat := 3

/-- Event id TEVENT_CONTROLLER_END from the source. -/
def TEVENT_CONTROLLER_END : Nat := 4

/-- Event id TEVENT_LOADER_START from the source. -/
def TEVENT_LOADER_START : Nat := 5

/-- Event id TEVENT_IFETCH_DONE_LOADER from the source. -/
def TEVENT_IFETCH_DONE_LOADER : Nat := 6

/-- Event id TEVENT_LAUNCHER_START from the source. -/
def TEVENT_LAUNCHER_START : Nat := 7

/-- Event id TEVENT_LAUNCHER_END from the source. -/
def TEVENT_LAUNCHER_END : Nat := 8

/-- Event id TEVENT_STORER_START from the source. -/
def TEVENT_STORER_START : Nat := 9

/-- Event id TEVENT_STORER_END from the source. -/
def TEVENT_STORER_END : Nat := 10

/-- Event id TEVENT_CONSUMER_START from the source. -/
def TEVENT_CONSUMER_START : Nat := 11

/-- The WORKER_EVENTS dict of the source: each worker role paired with the
(start, end) event-slot ids bounding its interval. -/
def WORKER_EVENTS : List (String × Nat × Nat) :=
  [("controller", TEVENT_CONTROLLER_START, TEVENT_CONTROLLER_END),
   ("loader", TEVENT_LOADER_START, TEVENT_IFETCH_DONE_LOADER),
   ("launcher", TEVENT_LAUNCHER_START, TEVENT_LAUNCHER_END),
   ("storer", TEVENT_STORER_START, TEVENT_STORER_END),
   ("consumer", TEVENT_CONSUMER_START, TEVENT_CONSUMER_START + 1)]

/-- Dictionary lookup WORKER_EVENTS[worker_name], as an option. -/
def workerEvents? (name : String) : Option (Nat × Nat) :=
  (WORKER_EVENTS.find? (fun p => p.1 == name)).map Prod.snd

/-- The OPCODE_NAMES dict of the source. -/
def OPCODE_NAMES : List (Int × String) :=
  [(1, "RMS_QKV_MatVecRopeAppend"),
   (2, "PartialAttention"),
   (3, "AttentionReduction"),
   (4, "O_ProjResidual"),
   (5, "RMS_DoubleMatVecSiLU"),
   (6, "DownProjResidual"),
   (7, "RMS_LM_Head")]

/-- OPCODE_NAMES.get(opcode, f-string Op<opcode>): the registered name for a
known opcode, a deterministic placeholder otherwise. -/
def opcodeName (opcode : Int) : String :=
  match OPCODE_NAMES.find? (fun p => p.1 == opcode) with
  | some p => p.2
  | none => "Op" ++ toString opcode

/-- A host-readable 3-D integer tensor (shape plus element storage), as the
schedule exposes timings and instructions. Torch tensors are rectangular,
so shape is carried separately from the storage function. -/
structure Tensor3 where
  dim0 : Nat
  dim1 : Nat
  dim2 : Nat
  data : Nat → Nat → Nat → Int

/-- Checked element access t[i, j, k].item(): some value when every index is
within the shape, none (an IndexError in Python) otherwise. -/
def Tensor3.get? (t : Tensor3) (i j k : Nat) : Option Int :=
  if i < t.dim0 ∧ j < t.dim1 ∧ k < t.dim2 then some (t.data i j k) else none

/-- One Perfetto complete event as assembled by export_to_perfetto, with the
args dictionary flattened into fields. -/
@[ext]
structure TraceEvent where
  name : String
  ph : String
  ts : ℚ
  dur : ℚ
  pid : Nat
  tid : String
  args_sm_id : Nat
  args_instruction_index : Nat
  args_opcode : Int
  args_operation : String
  args_start_cycles : Int
  args_end_cycles : Int
  args_start_us : ℚ
  args_end_us : ℚ
deriving DecidableEq

/-- The JSON object json.dump writes for one event. -/
def eventToJson (ev : TraceEvent) : Json :=
  Json.obj
    [("name", Json.str ev.name),
     ("ph", Json.str ev.ph),
     ("ts", Json.num ev.ts),
     ("dur", Json.num ev.dur),
     ("pid", Json.num (ev.pid : ℚ)),
     ("tid", Json.str ev.tid),
     ("args", Json.obj
       [("sm_id", Json.num (ev.args_sm_id : ℚ)),
        ("instruction_index", Json.num (ev.args_instruction_index : ℚ)),
        ("opcode", Json.num (ev.args_opcode : ℚ)),
        ("operation", Json.str ev.args_operation),
        ("start_cycles", Json.num (ev.args_start_cycles : ℚ)),
        ("end_cycles", Json.num (ev.args_end_cycles : ℚ)),
        ("start_us", Json.num ev.args_start_us),
        ("end_us", Json.num ev.args_end_us)])]

/-- The body of the per-(sm_id, instr_idx) loop iteration of
export_to_perfetto: reads the two cycle samples, applies the positivity and
positive-duration filters, and either skips (ok none), emits an event
(ok some), or raises an IndexError on an out-of-bounds read. -/
def buildEvent (timings instructions : Tensor3) (worker : String)
    (startId endId : Nat) (rate : ℚ) (sm idx : Nat) :
    Except TraceError (Option TraceEvent) :=
  match timings.get? sm idx startId with
  | none => Except.error TraceError.IndexError
  | some start_cycles =>
    match timings.get? sm idx endId with
    | none => Except.error TraceError.IndexError
    | some end_cycles =>
      if start_cycles ≤ 0 ∨ end_cycles ≤ 0 then Except.ok none
      else
        let start_us : ℚ := (start_cycles : ℚ) / rate
        let end_us : ℚ := (end_cycles : ℚ) / rate
        let duration_us : ℚ := end_us - start_us
        if duration_us ≤ 0 then Except.ok none
        else
          match instructions.get? sm idx 0 with
          | none => Except.error TraceError.IndexError
          | some opcode =>
            let op_name := opcodeName opcode
            Except.ok (some
              { name := op_name ++ ":" ++ worker
                ph := "X"
                ts := start_us
                dur := duration_us
                pid := sm
                tid := worker
                args_sm_id := sm
                args_instruction_index := idx
                args_opcode := opcode
                args_operation := op_name
                args_start_cycles := start_cycles
                args_end_cycles := end_cycles
                args_start_us := start_us
                args_end_us := end_us })

/-- Runs buildEvent over a list of (sm_id, instr_idx) pairs in order,
collecting emitted events and propagating the first error. -/
def buildEventsAux (timings instructions : Tensor3) (worker : String)
    (startId endId : Nat) (rate : ℚ) :
    List (Nat × Nat) → Except TraceError (List TraceEvent)
  | [] => Except.ok []
  | p :: ps =>
    match buildEvent timings instructions worker startId endId rate p.1 p.2 with
    | Except.error e => Except.error e
    | Except.ok ev? =>
      match buildEventsAux timings instructions worker startId endId rate ps with
      | Except.error e => Except.error e
      | Except.ok rest =>
        Except.ok (match ev? with
          | some ev => ev :: rest
          | none => rest)

/-- The iteration space of the double loop: sm_id-major, instr_idx-minor,
over the timing tensor's two leading dimensions. -/
def scanPairs (t : Tensor3) : List (Nat × Nat) :=
  (List.range t.dim0).flatMap (fun sm => (List.range t.dim1).map (fun idx => (sm, idx)))

/-- The full event-building scan of export_to_perfetto for a resolved
(startId, endId) slot pair. -/
def buildEvents (timings instructions : Tensor3) (worker : String)
    (startId endId : Nat) (rate : ℚ) : Except TraceError (List TraceEvent) :=
  buildEventsAux timings instructions worker startId endId rate (scanPairs timings)

/-- Event building for a named worker: the WORKER_EVENTS lookup followed by
the scan; an unknown worker raises, as in export_to_perfetto. -/
def buildWorkerEvents (timings instructions : Tensor3) (worker : String)
    (rate : ℚ) : Except TraceError (List TraceEvent) :=
  match workerEvents? worker with
  | none => Except.error (TraceError.UnknownWorker worker)
  | some se => buildEvents timings instructions worker se.1 se.2 rate

/-- Contents of one file: either text parsing to a JSON value, or text that
is not well-formed JSON. -/
inductive FileData where
  | json (value : Json) : FileData
  | malformed : FileData

/-- The filesystem: a partial map from paths to file contents. -/
def FS : Type := String → Option FileData

/-- Writing a file: the map updated at one path. -/
def updateFS (fs : FS) (path : String) (d : FileData) : FS :=
  fun q => if q = path then some d else fs q

/-- The json.dump call of export_to_perfetto (the TraceWriter): serializes
the event list as a JSON array at the given path, overwriting it; fails
with IOError when the path is not writable. -/
def writeTrace (writable : String → Bool) (fs : FS)
    (events : List TraceEvent) (path : String) :
    Except TraceError String × FS :=
  if writable path then
    (Except.ok path,
     updateFS fs path (FileData.json (Json.arr (events.map eventToJson))))
  else (Except.error (TraceError.IOError path), fs)

/-- export_to_perfetto: resolve the worker's slots (raising UnknownWorker
otherwise), scan the tensors building events, then write the JSON file.
The returned filesystem is unchanged on every error path, since the Python
code only opens the output file after the scan completes. -/
def export_to_perfetto (writable : String → Bool) (fs : FS)
    (timings instructions : Tensor3) (worker_name output_file : String)
    (clock_rate_mhz : ℚ) : Except TraceError String × FS :=
  match workerEvents? worker_name with
  | none => (Except.error (TraceError.UnknownWorker worker_name), fs)
  | some se =>
    match buildEvents timings instructions worker_name se.1 se.2 clock_rate_mhz with
    | Except.error e => (Except.error e, fs)
    | Except.ok events => writeTrace writable fs events output_file

/-- The f-string output path of export_all_workers for one role. -/
def rolePath (output_dir worker_name : String) : String :=
  output_dir ++ "/timeline_" ++ worker_name ++ ".json"

/-- The loop of export_all_workers over the remaining registry entries: each
role is exported inside a try/except, a success adds (role, path) to the
results, a failure is swallowed. -/
def exportAllGo (writable : String → Bool) (timings instructions : Tensor3)
    (output_dir : String) (rate : ℚ) :
    FS → List (String × Nat × Nat) → List (String × String) × FS
  | fs, [] => ([], fs)
  | fs, entry :: rest =>
    match export_to_perfetto writable fs timings instructions entry.1
        (rolePath output_dir entry.1) rate with
    | (Except.ok p, fs1) =>
      let r := exportAllGo writable timings instructions output_dir rate fs1 rest
      ((entry.1, p) :: r.1, r.2)
    | (Except.error _, fs1) =>
      exportAllGo writable timings instructions output_dir rate fs1 rest

/-- export_all_workers: drives export_to_perfetto over every registry entry
in order, returning the role-to-path mapping of the successes. -/
def export_all_workers (writable : String → Bool) (fs : FS)
    (timings instructions : Tensor3) (output_dir : String) (rate : ℚ) :
    List (String × String) × FS :=
  exportAllGo writable timings instructions output_dir rate fs WORKER_EVENTS

/-- Python list.extend(x) semantics on a decoded JSON value: an array
contributes its elements, an object its keys (in order), a string its
characters as one-character strings; numbers, booleans and null are not
iterable (TypeError, returned as none). -/
def pyExtend : Json → Option (List Json)
  | Json.arr es => some es
  | Json.obj fields => some (fields.map (fun p => Json.str p.1))
  | Json.str s => some (s.toList.map (fun c => Json.str (String.mk [c])))
  | _ => none

/-- One iteration of the merge_traces loop: open the file (FileNotFound when
absent), json.load it (ParseError on malformed text), and extend the
accumulator (TypeError on a non-iterable value). -/
def readEvents (fs : FS) (path : String) : Except TraceError (List Json) :=
  match fs path with
  | none => Except.error (TraceError.FileNotFound path)
  | some FileData.malformed => Except.error (TraceError.ParseError path)
  | some (FileData.json j) =>
    match pyExtend j with
    | some es => Except.ok es
    | none => Except.error TraceError.TypeError

/-- The full merge loop: all_events accumulated over the input files in
order, stopping at the first error. -/
def collectEvents (fs : FS) : List String → Except TraceError (List Json)
  | [] => Except.ok []
  | p :: ps =>
    match readEvents fs p with
    | Except.error e => Except.error e
    | Except.ok es =>
      match collectEvents fs ps with
      | Except.error e => Except.error e
      | Except.ok rest => Except.ok (es ++ rest)

/-- merge_traces: concatenate the decoded event arrays of the input files and
write the result; any error in the loop aborts before the output file is
opened, leaving the filesystem unchanged. -/
def merge_traces (writable : String → Bool) (fs : FS)
    (trace_files : List String) (output_file : String) :
    Except TraceError String × FS :=
  match collectEvents fs trace_files with
  | Except.error e => (Except.error e, fs)
  | Except.ok all_events =>
    if writable output_file then
      (Except.ok output_file,
       updateFS fs output_file (FileData.json (Json.arr all_events)))
    else (Except.error (TraceError.IOError output_file), fs)

/-! Fixtures: concrete inputs used to exercise the embedded operations. -/

/-- A filesystem predicate making every path writable. -/
def writableAll : String → Bool := fun _ => true

/-- The empty filesystem. -/
def emptyFS : FS := fun _ => none

/-- The spec scenario's timing tensor: one SM, one slot, event vector
5, 0, 0, 0, 15, 25, 0, ... (cycles 5 at slot 0, 15 at slot 4, 25 at slot 5). -/
def scenarioTimings : Tensor3 :=
  ⟨1, 1, 128, fun _ _ k => if k = 0 then 5 else if k = 4 then 15 else if k = 5 then 25 else 0⟩

/-- The spec scenario's instruction tensor: opcode 3 everywhere. -/
def scenarioInstructions : Tensor3 := ⟨1, 1, 32, fun _ _ _ => 3⟩

/-- The one event the spec scenario produces (clock rate 10 MHz). -/
def scenarioEvent : TraceEvent :=
  { name := "AttentionReduction:controller", ph := "X", ts := 1/2, dur := 1, pid := 0,
    tid := "controller", args_sm_id := 0, args_instruction_index := 0, args_opcode := 3,
    args_operation := "AttentionReduction", args_start_cycles := 5, args_end_cycles := 15,
    args_start_us := 1/2, args_end_us := 3/2 }

/-- A timing tensor whose leading dimensions (1, 1) disagree with
cexInstructions' (2, 2), carrying one valid controller sample. -/
def cexTimings : Tensor3 :=
  ⟨1, 1, 13, fun _ _ k => if k = 0 then 5 else if k = 4 then 15 else 0⟩

/-- An instruction tensor with leading dimensions (2, 2), disagreeing with
cexTimings' (1, 1). -/
def cexInstructions : Tensor3 := ⟨2, 2, 1, fun _ _ _ => 3⟩

/-- A timing tensor with two SMs and valid controller samples on both. -/
def mismatchTimings : Tensor3 :=
  ⟨2, 1, 13, fun _ _ k => if k = 0 then 5 else if k = 4 then 15 else 0⟩

/-- An instruction tensor covering only one SM, so that mismatchTimings'
second SM reads its opcode out of bounds. -/
def smallInstructions : Tensor3 := ⟨1, 1, 1, fun _ _ _ => 3⟩

/-- A timing tensor whose event vector has exactly 12 slots (indices 0..11),
the minimum the data model requires. -/
def t12 : Tensor3 := ⟨1, 1, 12, fun _ _ k => (k : Int) + 1⟩

/-- An instruction tensor matching t12's leading dimensions. -/
def i12 : Tensor3 := ⟨1, 1, 1, fun _ _ _ => 1⟩

/-- A filesystem holding one file whose text is a well-formed JSON object
(not an array). -/
def objFS : FS := fun p =>
  if p = "in.json" then some (FileData.json (Json.obj [("alpha", Json.num 1)])) else none

/-- A filesystem holding one file whose text is not well-formed JSON. -/
def badFS : FS := fun p =>
  if p = "bad.json" then some FileData.malformed else none

/-- A filesystem holding two trace files with one and two events. -/
def mergeFS : FS := fun p =>
  if p = "a.json" then some (FileData.json (Json.arr [Json.num 1]))
  else if p = "b.json" then some (FileData.json (Json.arr [Json.str "x", Json.null]))
  else none

/-- The role names of the registry, in enumeration order. -/
def roleNames : List String := WORKER_EVENTS.map Prod.fst

/-- Whether exporting one role succeeds. The outcome of export_to_perfetto
does not depend on the incoming filesystem, so it is probed on the empty
one. -/
def exportOutcome (writable : String → Bool) (timings instructions : Tensor3)
    (output_dir : String) (rate : ℚ) (name : String) : Bool :=
  match (export_to_perfetto writable emptyFS timings instructions name
      (rolePath output_dir name) rate).1 with
  | Except.ok _ => true
  | Except.error _ => false

/-- The events a successful export of one role writes. -/
def builtEvents (timings instructions : Tensor3) (name : String) (rate : ℚ) :
    List TraceEvent :=
  match buildWorkerEvents timings instructions name rate with
  | Except.ok evs => evs
  | Except.error _ => []

/-- A writability predicate blocking exactly the loader's output file under
directory d. -/
def loaderBlocked : String → Bool := fun p => !(p == "d/timeline_loader.json")

/-- A timing tensor whose samples are all zero, so every pair is filtered by
the positivity check. -/
def zeroTimings : Tensor3 := ⟨1, 1, 12, fun _ _ _ => 0⟩

/-- An instruction tensor matching zeroTimings' leading dimensions. -/
def zeroInstructions : Tensor3 := ⟨1, 1, 1, fun _ _ _ => 1⟩

/-- A 2 x 3 timing tensor with the minimal 12-slot event vector. -/
def wTimings : Tensor3 := ⟨2, 3, 12, fun _ _ k => (k : Int)⟩

/-- An instruction tensor matching wTimings' leading dimensions. -/
def wInstructions : Tensor3 := ⟨2, 3, 1, fun _ _ _ => 2⟩

/-- A sample event used in round-trip checks. -/
def sampleEvent : TraceEvent :=
  { name := "Op42:storer", ph := "X", ts := 2, dur := 3, pid := 1,
    tid := "storer", args_sm_id := 1, args_instruction_index := 0, args_opcode := 42,
    args_operation := "Op42", args_start_cycles := 20, args_end_cycles := 50,
    args_start_us := 2, args_end_us := 5 }

/-! Helper lemmas. -/

/-- Range of one element, for unfolding concrete scans. -/
theorem range_one_eq : List.range 1 = [0] := rfl

/-- Closed form of one loop iteration once the three tensor reads are known
to be in bounds. -/
theorem buildEvent_eq (timings instructions : Tensor3) (worker : String)
    (startId endId : Nat) (rate : ℚ) (sm idx : Nat) (sc ec op : Int)
    (hs : timings.get? sm idx startId = some sc)
    (he : timings.get? sm idx endId = some ec)
    (ho : instructions.get? sm idx 0 = some op) :
    buildEvent timings instructions worker startId endId rate sm idx =
      if sc ≤ 0 ∨ ec ≤ 0 then Except.ok none
      else if (ec : ℚ) / rate - (sc : ℚ) / rate ≤ 0 then Except.ok none
      else Except.ok (some
        { name := opcodeName op ++ ":" ++ worker
          ph := "X"
          ts := (sc : ℚ) / rate
          dur := (ec : ℚ) / rate - (sc : ℚ) / rate
          pid := sm
          tid := worker
          args_sm_id := sm
          args_instruction_index := idx
          args_opcode := op
          args_operation := opcodeName op
          args_start_cycles := sc
          args_end_cycles := ec
          args_start_us := (sc : ℚ) / rate
          args_end_us := (ec : ℚ) / rate }) := by
  simp only [buildEvent, hs, he, ho]

/-- C1: for every (sm_id, instruction_slot) pair scanned with in-bounds
reads, an event is emitted exactly when start_cycles > 0, end_cycles > 0
and the converted duration is strictly positive; any emitted event carries
a strictly positive duration; and (for a positive clock rate) a sample with
end_cycles ≤ start_cycles — equality included — produces no event. -/
theorem event_emission_filter (timings instructions : Tensor3) (worker : String)
    (startId endId : Nat) (rate : ℚ) (sm idx : Nat) (sc ec : Int)
    (hs : timings.get? sm idx startId = some sc)
    (he : timings.get? sm idx endId = some ec)
    (hop : instructions.get? sm idx 0 ≠ none) :
    ((∃ ev, buildEvent timings instructions worker startId endId rate sm idx =
        Except.ok (some ev)) ↔
      0 < sc ∧ 0 < ec ∧ 0 < (ec : ℚ) / rate - (sc : ℚ) / rate)
    ∧ (∀ ev, buildEvent timings instructions worker startId endId rate sm idx =
        Except.ok (some ev) → 0 < ev.dur)
    ∧ (0 < rate → ec ≤ sc →
        buildEvent timings instructions worker startId endId rate sm idx =
          Except.ok none) := by
  obtain ⟨op, ho⟩ : ∃ op, instructions.get? sm idx 0 = some op := by
    cases hoo : instructions.get? sm idx 0 with
    | none => exact absurd hoo hop
    | some op => exact ⟨op, rfl⟩
  rw [buildEvent_eq timings instructions worker startId endId rate sm idx sc ec op hs he ho]
  by_cases h1 : sc ≤ 0 ∨ ec ≤ 0
  · rw [if_pos h1]
    refine ⟨⟨fun hex => ?_, fun hpos => ?_⟩, fun ev hev => ?_, fun _ _ => rfl⟩
    · obtain ⟨ev, hev⟩ := hex
      simp at hev
    · rcases h1 with h | h
      · exact absurd hpos.1 (by omega)
      · exact absurd hpos.2.1 (by omega)
    · simp at hev
  · rw [if_neg h1]
    push_neg at h1
    by_cases h2 : (ec : ℚ) / rate - (sc : ℚ) / rate ≤ 0
    · rw [if_pos h2]
      refine ⟨⟨fun hex => ?_, fun hpos => ?_⟩, fun ev hev => ?_, fun _ _ => rfl⟩
      · obtain ⟨ev, hev⟩ := hex
        simp at hev
      · exact absurd hpos.2.2 (by linarith)
      · simp at hev
    · rw [if_neg h2]
      push_neg at h2
      refine ⟨⟨fun _ => ⟨h1.1, h1.2, h2⟩, fun _ => ⟨_, rfl⟩⟩,
        fun ev hev => ?_, fun hrate hle => ?_⟩
      · simp only [Except.ok.injEq, Option.some.injEq] at hev
        rw [← hev]
        exact h2
      · have hcast : (ec : ℚ) ≤ (sc : ℚ) := Int.cast_le.mpr hle
        have hdiv : (ec : ℚ) / rate ≤ (sc : ℚ) / rate :=
          div_le_div_of_nonneg_right hcast hrate.le
        linarith

/-- Witness for C1: the filter characterization at the spec scenario's
controller sample (cycles 5 and 15, clock rate 10 MHz). -/
theorem event_emission_filter_witness :
    scenarioTimings.get? 0 0 0 = some 5 ∧
    scenarioTimings.get? 0 0 4 = some 15 ∧
    scenarioInstructions.get? 0 0 0 ≠ none ∧
    (((∃ ev, buildEvent scenarioTimings scenarioInstructions "controller" 0 4 10 0 0 =
        Except.ok (some ev)) ↔
      0 < (5 : Int) ∧ 0 < (15 : Int) ∧
        0 < ((15 : Int) : ℚ) / 10 - ((5 : Int) : ℚ) / 10)
     ∧ (∀ ev, buildEvent scenarioTimings scenarioInstructions "controller" 0 4 10 0 0 =
        Except.ok (some ev) → 0 < ev.dur)
     ∧ (0 < (10 : ℚ) → (15 : Int) ≤ 5 →
        buildEvent scenarioTimings scenarioInstructions "controller" 0 4 10 0 0 =
          Except.ok none)) :=
  ⟨by decide, by decide, by decide,
   event_emission_filter scenarioTimings scenarioInstructions "controller" 0 4 10 0 0 5 15
     (by decide) (by decide) (by decide)⟩

/-- Registry lookup for the controller, by evaluation. -/
theorem workerEvents?_controller : workerEvents? "controller" = some (0, 4) := by decide

/-- Catalog lookup for opcode 3, by evaluation. -/
theorem opcodeName_3 : opcodeName 3 = "AttentionReduction" := by decide

/-- Helper: the spec scenario's single loop iteration emits exactly the
scenario event. -/
theorem scenario_buildEvent :
    buildEvent scenarioTimings scenarioInstructions "controller" 0 4 10 0 0 =
      Except.ok (some scenarioEvent) := by
  rw [buildEvent_eq scenarioTimings scenarioInstructions "controller" 0 4 10 0 0 5 15 3
    (by decide) (by decide) (by decide)]
  norm_num [scenarioEvent, TraceEvent.mk.injEq, opcodeName_3]
  decide

/-- Helper: the spec scenario's controller export builds exactly one event. -/
theorem scenario_build :
    buildWorkerEvents scenarioTimings scenarioInstructions "controller" 10 =
      Except.ok [scenarioEvent] := by
  have hpairs : scanPairs scenarioTimings = [(0, 0)] := by decide
  simp only [buildWorkerEvents, workerEvents?_controller, buildEvents, hpairs,
    buildEventsAux, scenario_buildEvent]

/-- C2: every emitted event has name "<operation>:<role>", ph "X",
ts = start_cycles/rate, dur = (end_cycles - start_cycles)/rate, pid = sm_id,
tid = the worker role name and the full args bag; and the spec's controller
scenario (slots 0 and 4, cycles 5 and 15, clock rate 10 MHz) yields exactly
one event with ts 0.5, dur 1.0 and tid "controller". -/
theorem event_fields_shape (timings instructions : Tensor3) (worker : String)
    (startId endId : Nat) (rate : ℚ) (sm idx : Nat) (sc ec op : Int) (ev : TraceEvent)
    (hs : timings.get? sm idx startId = some sc)
    (he : timings.get? sm idx endId = some ec)
    (ho : instructions.get? sm idx 0 = some op)
    (hev : buildEvent timings instructions worker startId endId rate sm idx =
      Except.ok (some ev)) :
    (ev.name = opcodeName op ++ ":" ++ worker ∧ ev.ph = "X" ∧
     ev.ts = (sc : ℚ) / rate ∧ ev.dur = ((ec : ℚ) - (sc : ℚ)) / rate ∧
     ev.pid = sm ∧ ev.tid = worker ∧
     ev.args_sm_id = sm ∧ ev.args_instruction_index = idx ∧
     ev.args_opcode = op ∧ ev.args_operation = opcodeName op ∧
     ev.args_start_cycles = sc ∧ ev.args_end_cycles = ec ∧
     ev.args_start_us = (sc : ℚ) / rate ∧ ev.args_end_us = (ec : ℚ) / rate)
    ∧ (workerEvents? "controller" = some (0, 4) ∧
       buildWorkerEvents scenarioTimings scenarioInstructions "controller" 10 =
         Except.ok [scenarioEvent] ∧
       scenarioEvent.ts = 1/2 ∧ scenarioEvent.dur = 1 ∧
       scenarioEvent.tid = "controller") := by
  refine ⟨?_, workerEvents?_controller, scenario_build, rfl, rfl, rfl⟩
  rw [buildEvent_eq timings instructions worker startId endId rate sm idx sc ec op hs he ho]
    at hev
  split_ifs at hev with h1 h2
  · simp at hev
  · simp at hev
  · simp only [Except.ok.injEq, Option.some.injEq] at hev
    subst hev
    exact ⟨rfl, rfl, rfl, (sub_div _ _ _).symm, rfl, rfl, rfl, rfl, rfl, rfl, rfl, rfl,
      rfl, rfl⟩

/-- Witness for C2: the field characterization at the spec scenario's event. -/
theorem event_fields_shape_witness :
    scenarioTimings.get? 0 0 0 = some 5 ∧
    scenarioTimings.get? 0 0 4 = some 15 ∧
    scenarioInstructions.get? 0 0 0 = some 3 ∧
    buildEvent scenarioTimings scenarioInstructions "controller" 0 4 10 0 0 =
      Except.ok (some scenarioEvent) ∧
    ((scenarioEvent.name = opcodeName 3 ++ ":" ++ "controller" ∧ scenarioEvent.ph = "X" ∧
      scenarioEvent.ts = ((5 : Int) : ℚ) / 10 ∧
      scenarioEvent.dur = (((15 : Int) : ℚ) - ((5 : Int) : ℚ)) / 10 ∧
      scenarioEvent.pid = 0 ∧ scenarioEvent.tid = "controller" ∧
      scenarioEvent.args_sm_id = 0 ∧ scenarioEvent.args_instruction_index = 0 ∧
      scenarioEvent.args_opcode = 3 ∧ scenarioEvent.args_operation = opcodeName 3 ∧
      scenarioEvent.args_start_cycles = 5 ∧ scenarioEvent.args_end_cycles = 15 ∧
      scenarioEvent.args_start_us = ((5 : Int) : ℚ) / 10 ∧
      scenarioEvent.args_end_us = ((15 : Int) : ℚ) / 10)
     ∧ (workerEvents? "controller" = some (0, 4) ∧
        buildWorkerEvents scenarioTimings scenarioInstructions "controller" 10 =
          Except.ok [scenarioEvent] ∧
        scenarioEvent.ts = 1/2 ∧ scenarioEvent.dur = 1 ∧
        scenarioEvent.tid = "controller")) :=
  ⟨by decide, by decide, by decide, scenario_buildEvent,
   event_fields_shape scenarioTimings scenarioInstructions "controller" 0 4 10 0 0 5 15 3
     scenarioEvent (by decide) (by decide) (by decide) scenario_buildEvent⟩

/-- Helper: a role outside the enumerated set finds nothing in the registry. -/
theorem workerEvents?_eq_none (worker : String)
    (hw : worker ∉ ["controller", "loader", "launcher", "storer", "consumer"]) :
    workerEvents? worker = none := by
  have hfind : WORKER_EVENTS.find? (fun p => p.1 == worker) = none := by
    apply List.find?_eq_none.mpr
    intro p hp
    simp only [WORKER_EVENTS, TEVENT_CONTROLLER_START, TEVENT_CONTROLLER_END,
      TEVENT_LOADER_START, TEVENT_IFETCH_DONE_LOADER, TEVENT_LAUNCHER_START,
      TEVENT_LAUNCHER_END, TEVENT_STORER_START, TEVENT_STORER_END,
      TEVENT_CONSUMER_START, List.mem_cons, List.not_mem_nil, or_false] at hp
    simp only [beq_iff_eq]
    intro h
    apply hw
    rcases hp with h5 | h5 | h5 | h5 | h5 <;> subst h5 <;> rw [← h] <;> simp
  simp [workerEvents?, hfind]

/-- C3: exporting for a role outside the fixed set fails with UnknownWorker
and leaves the filesystem (in particular the output path) untouched, while
each of the five known roles resolves to its fixed slot pair. -/
theorem unknown_worker_behavior (writable : String → Bool) (fs : FS)
    (timings instructions : Tensor3) (worker output : String) (rate : ℚ)
    (hw : worker ∉ ["controller", "loader", "launcher", "storer", "consumer"]) :
    (export_to_perfetto writable fs timings instructions worker output rate).1 =
        Except.error (TraceError.UnknownWorker worker)
    ∧ (export_to_perfetto writable fs timings instructions worker output rate).2 = fs
    ∧ workerEvents? "controller" = some (0, 4)
    ∧ workerEvents? "loader" = some (5, 6)
    ∧ workerEvents? "launcher" = some (7, 8)
    ∧ workerEvents? "storer" = some (9, 10)
    ∧ workerEvents? "consumer" = some (11, 12) := by
  have hnone := workerEvents?_eq_none worker hw
  refine ⟨?_, ?_, by decide, by decide, by decide, by decide, by decide⟩
  · simp [export_to_perfetto, hnone]
  · simp [export_to_perfetto, hnone]

/-- Witness for C3: the unregistered role "gpu_core" fails with UnknownWorker
and writes nothing. -/
theorem unknown_worker_behavior_witness :
    "gpu_core" ∉ ["controller", "loader", "launcher", "storer", "consumer"] ∧
    ((export_to_perfetto writableAll emptyFS scenarioTimings scenarioInstructions
        "gpu_core" "timeline.json" 10).1 =
      Except.error (TraceError.UnknownWorker "gpu_core")
     ∧ (export_to_perfetto writableAll emptyFS scenarioTimings scenarioInstructions
        "gpu_core" "timeline.json" 10).2 = emptyFS
     ∧ workerEvents? "controller" = some (0, 4)
     ∧ workerEvents? "loader" = some (5, 6)
     ∧ workerEvents? "launcher" = some (7, 8)
     ∧ workerEvents? "storer" = some (9, 10)
     ∧ workerEvents? "consumer" = some (11, 12)) :=
  ⟨by decide,
   unknown_worker_behavior writableAll emptyFS scenarioTimings scenarioInstructions
     "gpu_core" "timeline.json" 10 (by decide)⟩

/-- C5: opcode resolution is total and deterministic — every registered
opcode resolves to its registered name, every unregistered opcode to the
placeholder "Op<opcode>", with opcode 3 and 99 as the spec's examples. -/
theorem opcode_resolution_total (op : Int)
    (hop : op ∉ OPCODE_NAMES.map Prod.fst) :
    opcodeName op = "Op" ++ toString op
    ∧ (∀ p ∈ OPCODE_NAMES, opcodeName p.1 = p.2)
    ∧ opcodeName 3 = "AttentionReduction"
    ∧ opcodeName 99 = "Op99" := by
  refine ⟨?_, by decide, by decide, by decide⟩
  have hfind : OPCODE_NAMES.find? (fun p => p.1 == op) = none := by
    apply List.find?_eq_none.mpr
    intro p hp
    simp only [beq_iff_eq]
    intro h
    exact hop (List.mem_map.mpr ⟨p, hp, h⟩)
  simp [opcodeName, hfind]

/-- Witness for C5: opcode 99 is unregistered and resolves to Op99. -/
theorem opcode_resolution_total_witness :
    (99 : Int) ∉ OPCODE_NAMES.map Prod.fst ∧
    (opcodeName 99 = "Op" ++ toString (99 : Int)
     ∧ (∀ p ∈ OPCODE_NAMES, opcodeName p.1 = p.2)
     ∧ opcodeName 3 = "AttentionReduction"
     ∧ opcodeName 99 = "Op99") :=
  ⟨by decide, opcode_resolution_total 99 (by decide)⟩

/-- Helper: the only error one loop iteration can raise is IndexError. -/
theorem buildEvent_error_eq (timings instructions : Tensor3) (worker : String)
    (startId endId : Nat) (rate : ℚ) (sm idx : Nat) (e : TraceError)
    (h : buildEvent timings instructions worker startId endId rate sm idx =
      Except.error e) : e = TraceError.IndexError := by
  cases h1 : timings.get? sm idx startId with
  | none =>
    simp only [buildEvent, h1, Except.error.injEq] at h
    exact h.symm
  | some sc =>
    cases h2 : timings.get? sm idx endId with
    | none =>
      simp only [buildEvent, h1, h2, Except.error.injEq] at h
      exact h.symm
    | some ec =>
      cases h3 : instructions.get? sm idx 0 with
      | none =>
        simp only [buildEvent, h1, h2, h3] at h
        split_ifs at h
        injection h with hh
        exact hh.symm
      | some op =>
        simp only [buildEvent, h1, h2, h3] at h
        split_ifs at h

/-- Helper: the only error the scan can raise is IndexError. -/
theorem buildEventsAux_error_eq (timings instructions : Tensor3) (worker : String)
    (startId endId : Nat) (rate : ℚ) (l : List (Nat × Nat)) (e : TraceError)
    (h : buildEventsAux timings instructions worker startId endId rate l =
      Except.error e) : e = TraceError.IndexError := by
  induction l with
  | nil => simp [buildEventsAux] at h
  | cons p ps ih =>
    cases hb : buildEvent timings instructions worker startId endId rate p.1 p.2 with
    | error e1 =>
      simp only [buildEventsAux, hb, Except.error.injEq] at h
      rw [← h]
      exact buildEvent_error_eq timings instructions worker startId endId rate p.1 p.2 e1 hb
    | ok ev? =>
      simp only [buildEventsAux, hb] at h
      cases hr : buildEventsAux timings instructions worker startId endId rate ps with
      | error e2 =>
        rw [hr] at h
        simp only [Except.error.injEq] at h
        subst h
        exact ih hr
      | ok rest =>
        rw [hr] at h
        simp at h

/-- C4 counterexample: the two fixture tensors disagree on both leading
dimensions, yet the build succeeds and emits an event instead of failing
with ShapeMismatch. -/
theorem shape_mismatch_counterexample :
    cexTimings.dim0 ≠ cexInstructions.dim0 ∧ cexTimings.dim1 ≠ cexInstructions.dim1 ∧
    buildWorkerEvents cexTimings cexInstructions "controller" 10 =
      Except.ok [scenarioEvent] := by
  refine ⟨by decide, by decide, ?_⟩
  have hpairs : scanPairs cexTimings = [(0, 0)] := by decide
  have hev : buildEvent cexTimings cexInstructions "controller" 0 4 10 0 0 =
      Except.ok (some scenarioEvent) := by
    rw [buildEvent_eq cexTimings cexInstructions "controller" 0 4 10 0 0 5 15 3
      (by decide) (by decide) (by decide)]
    norm_num [scenarioEvent, TraceEvent.mk.injEq, opcodeName_3]
    decide
  simp only [buildWorkerEvents, workerEvents?_controller, buildEvents, hpairs,
    buildEventsAux, hev]

/-- C4 amended: the code performs no shape validation — no input ever fails
with ShapeMismatch; with disagreeing leading dimensions the scan either
succeeds (when the instruction tensor covers the timing tensor's leading
dimensions, as in the counterexample) or fails with IndexError on an
out-of-bounds opcode read, as on the fixture where the instruction tensor
covers only one of the two SMs. -/
theorem shape_mismatch_amended :
    (∀ (timings instructions : Tensor3) (worker : String) (rate : ℚ) (e : TraceError),
      buildWorkerEvents timings instructions worker rate = Except.error e →
        e ≠ TraceError.ShapeMismatch)
    ∧ (mismatchTimings.dim0 ≠ smallInstructions.dim0 ∧
       buildWorkerEvents mismatchTimings smallInstructions "controller" 10 =
         Except.error TraceError.IndexError) := by
  refine ⟨?_, by decide, ?_⟩
  · intro timings instructions worker rate e h
    cases hw : workerEvents? worker with
    | none =>
      simp only [buildWorkerEvents, hw, Except.error.injEq] at h
      rw [← h]
      simp
    | some se =>
      simp only [buildWorkerEvents, hw, buildEvents] at h
      rw [buildEventsAux_error_eq timings instructions worker se.1 se.2 rate
        (scanPairs timings) e h]
      simp
  · have hpairs : scanPairs mismatchTimings = [(0, 0), (1, 0)] := by decide
    have h0 : buildEvent mismatchTimings smallInstructions "controller" 0 4 10 0 0 =
        Except.ok (some scenarioEvent) := by
      rw [buildEvent_eq mismatchTimings smallInstructions "controller" 0 4 10 0 0 5 15 3
        (by decide) (by decide) (by decide)]
      norm_num [scenarioEvent, TraceEvent.mk.injEq, opcodeName_3]
      decide
    have h1 : buildEvent mismatchTimings smallInstructions "controller" 0 4 10 1 0 =
        Except.error TraceError.IndexError := by
      have hga : mismatchTimings.get? 1 0 0 = some 5 := by decide
      have hgb : mismatchTimings.get? 1 0 4 = some 15 := by decide
      have hgc : smallInstructions.get? 1 0 0 = none := by decide
      simp only [buildEvent, hga, hgb, hgc]
      norm_num
    simp only [buildWorkerEvents, workerEvents?_controller, buildEvents, hpairs,
      buildEventsAux, h0, h1]

/-- Witness for C4's amended claim: the IndexError actually raised on the
mismatched fixture is not ShapeMismatch. -/
theorem shape_mismatch_amended_witness :
    buildWorkerEvents mismatchTimings smallInstructions "controller" 10 =
      Except.error TraceError.IndexError ∧
    TraceError.IndexError ≠ TraceError.ShapeMismatch :=
  ⟨shape_mismatch_amended.2.2,
   shape_mismatch_amended.1 mismatchTimings smallInstructions "controller" 10
     TraceError.IndexError shape_mismatch_amended.2.2⟩

/-- Helper: reading a file holding a JSON array yields its elements. -/
theorem readEvents_arr (fs : FS) (path : String) (c : List Json)
    (h : fs path = some (FileData.json (Json.arr c))) :
    readEvents fs path = Except.ok c := by
  simp [readEvents, h, pyExtend]

/-- Helper: collecting over files that all hold JSON arrays concatenates
their element lists in order. -/
theorem collectEvents_arr (fs : FS) (paths : List String) (contents : List (List Json))
    (h : List.Forall₂ (fun p c => fs p = some (FileData.json (Json.arr c)))
      paths contents) :
    collectEvents fs paths = Except.ok contents.flatten := by
  induction h with
  | nil => simp [collectEvents]
  | cons hpc hrest ih =>
    simp [collectEvents, readEvents_arr _ _ _ hpc, ih]

/-- C6: merging n files holding JSON arrays of events succeeds and writes
exactly their concatenation — files in the order given, each file's events
in their original order — whose length is the sum of the per-file counts. -/
theorem merge_concatenates (writable : String → Bool) (fs : FS)
    (paths : List String) (contents : List (List Json)) (output : String)
    (hfiles : List.Forall₂ (fun p c => fs p = some (FileData.json (Json.arr c)))
      paths contents)
    (hw : writable output = true) :
    (merge_traces writable fs paths output).1 = Except.ok output
    ∧ (merge_traces writable fs paths output).2 output =
        some (FileData.json (Json.arr contents.flatten))
    ∧ contents.flatten.length = (contents.map List.length).sum := by
  have hc := collectEvents_arr fs paths contents hfiles
  refine ⟨?_, ?_, List.length_flatten contents⟩
  · simp [merge_traces, hc, hw]
  · simp [merge_traces, hc, hw, updateFS]

/-- Witness for C6: merging two concrete files with one and two events
yields the three events in concatenation order. -/
theorem merge_concatenates_witness :
    List.Forall₂ (fun p c => mergeFS p = some (FileData.json (Json.arr c)))
      ["a.json", "b.json"] [[Json.num 1], [Json.str "x", Json.null]] ∧
    writableAll "out.json" = true ∧
    ((merge_traces writableAll mergeFS ["a.json", "b.json"] "out.json").1 =
        Except.ok "out.json"
     ∧ (merge_traces writableAll mergeFS ["a.json", "b.json"] "out.json").2 "out.json" =
        some (FileData.json
          (Json.arr ([[Json.num 1], [Json.str "x", Json.null]] : List (List Json)).flatten))
     ∧ ([[Json.num 1], [Json.str "x", Json.null]] : List (List Json)).flatten.length =
        (([[Json.num 1], [Json.str "x", Json.null]] : List (List Json)).map
          List.length).sum) :=
  ⟨List.Forall₂.cons rfl (List.Forall₂.cons rfl List.Forall₂.nil), rfl,
   merge_concatenates writableAll mergeFS ["a.json", "b.json"]
     [[Json.num 1], [Json.str "x", Json.null]] "out.json"
     (List.Forall₂.cons rfl (List.Forall₂.cons rfl List.Forall₂.nil)) rfl⟩

/-- C7 counterexample: an input file whose text is well-formed JSON but not
an array — an object — does not make merge fail with ParseError as the
claim requires for every non-array input: the merge succeeds and writes the
object's keys as events. -/
theorem merge_nonarray_counterexample :
    objFS "in.json" = some (FileData.json (Json.obj [("alpha", Json.num 1)]))
    ∧ (∀ c, Json.obj [("alpha", Json.num 1)] ≠ Json.arr c)
    ∧ (merge_traces writableAll objFS ["in.json"] "out.json").1 = Except.ok "out.json"
    ∧ (merge_traces writableAll objFS ["in.json"] "out.json").2 "out.json" =
        some (FileData.json (Json.arr [Json.str "alpha"])) :=
  ⟨rfl, fun _ h => Json.noConfusion h, rfl, rfl⟩

/-- Helper: collecting over files whose text is well-formed JSON never
raises ParseError, whatever the decoded values are. -/
theorem collectEvents_no_parse_error (fs : FS) (paths : List String)
    (hjson : ∀ p ∈ paths, ∃ j, fs p = some (FileData.json j)) :
    ∀ q, collectEvents fs paths ≠ Except.error (TraceError.ParseError q) := by
  induction paths with
  | nil =>
    intro q h
    simp [collectEvents] at h
  | cons p ps ih =>
    intro q h
    obtain ⟨j, hj⟩ := hjson p (List.mem_cons_self p ps)
    simp only [collectEvents, readEvents, hj] at h
    cases hx : pyExtend j with
    | none =>
      simp only [hx] at h
      simp at h
    | some es =>
      simp only [hx] at h
      cases hr : collectEvents fs ps with
      | error e2 =>
        simp only [hr, Except.error.injEq] at h
        exact ih (fun p hp => hjson p (List.mem_cons_of_mem _ hp)) q (by rw [hr, h])
      | ok rest =>
        simp only [hr] at h
        simp at h

/-- C7 amended: merge raises ParseError exactly for text that is not
well-formed JSON — inputs that all parse can never yield ParseError, even
when a decoded value is not an array (an object merges its keys instead) —
any error aborts before the output is written, leaving the filesystem
unchanged, and a malformed input does fail with ParseError naming it. -/
theorem merge_parse_error_amended (writable : String → Bool) (fs : FS)
    (paths : List String) (output : String) :
    ((∀ p ∈ paths, ∃ j, fs p = some (FileData.json j)) →
      ∀ q, (merge_traces writable fs paths output).1 ≠
        Except.error (TraceError.ParseError q))
    ∧ (∀ e, (merge_traces writable fs paths output).1 = Except.error e →
        (merge_traces writable fs paths output).2 = fs)
    ∧ ((merge_traces writableAll badFS ["bad.json"] "out.json").1 =
        Except.error (TraceError.ParseError "bad.json")
       ∧ (merge_traces writableAll badFS ["bad.json"] "out.json").2 = badFS) := by
  refine ⟨?_, ?_, rfl, rfl⟩
  · intro hjson q h
    unfold merge_traces at h
    cases hc : collectEvents fs paths with
    | error e =>
      simp only [hc, Except.error.injEq] at h
      exact collectEvents_no_parse_error fs paths hjson q (by rw [hc, h])
    | ok evs =>
      simp only [hc] at h
      split_ifs at h
      simp at h
  · intro e h
    unfold merge_traces at h ⊢
    cases hc : collectEvents fs paths with
    | error e2 => simp [hc]
    | ok evs =>
      simp only [hc] at h ⊢
      split_ifs at h ⊢
      rfl

/-- Witness for C7's amended claim: on the object-valued input every file is
well-formed JSON, so no ParseError arises. -/
theorem merge_parse_error_amended_witness :
    (∀ p ∈ ["in.json"], ∃ j, objFS p = some (FileData.json j)) ∧
    (∀ q, (merge_traces writableAll objFS ["in.json"] "out.json").1 ≠
      Except.error (TraceError.ParseError q)) :=
  ⟨fun p hp => ⟨Json.obj [("alpha", Json.num 1)], by
      rw [List.mem_singleton] at hp
      rw [hp]
      rfl⟩,
   (merge_parse_error_amended writableAll objFS ["in.json"] "out.json").1
     (fun p hp => ⟨Json.obj [("alpha", Json.num 1)], by
      rw [List.mem_singleton] at hp
      rw [hp]
      rfl⟩)⟩

/-- Helper: the event serialization is injective. -/
theorem eventToJson_injective (e1 e2 : TraceEvent)
    (h : eventToJson e1 = eventToJson e2) : e1 = e2 := by
  cases e1
  cases e2
  simp only [eventToJson, Json.obj.injEq, List.cons.injEq, Prod.mk.injEq,
    Json.str.injEq, Json.num.injEq, Nat.cast_inj, Int.cast_inj, true_and,
    and_true] at h
  obtain ⟨h1, h2, h3, h4, h5, h6, h7, h8, h9, h10, h11, h12, h13, h14⟩ := h
  simp only [TraceEvent.mk.injEq]
  exact ⟨h1, h2, h3, h4, h5, h6, h7, h8, h9, h10, h11, h12, h13, h14⟩

/-- C9: writing a list of events to a file and merging that single file into
a fresh output writes back exactly the same event array, in the same order;
the per-event serialization is injective, so the events themselves are
recovered unchanged. -/
theorem write_merge_roundtrip (writable : String → Bool) (fs : FS)
    (events : List TraceEvent) (path output : String)
    (hw1 : writable path = true) (hw2 : writable output = true) :
    (merge_traces writable (writeTrace writable fs events path).2 [path] output).1 =
        Except.ok output
    ∧ (merge_traces writable (writeTrace writable fs events path).2 [path] output).2
        output = some (FileData.json (Json.arr (events.map eventToJson)))
    ∧ (∀ e1 e2 : TraceEvent, eventToJson e1 = eventToJson e2 → e1 = e2) := by
  have hfs1 : (writeTrace writable fs events path).2 path =
      some (FileData.json (Json.arr (events.map eventToJson))) := by
    simp [writeTrace, hw1, updateFS]
  have hcol : collectEvents (writeTrace writable fs events path).2 [path] =
      Except.ok (events.map eventToJson) := by
    simp [collectEvents, readEvents_arr _ _ _ hfs1]
  refine ⟨?_, ?_, eventToJson_injective⟩
  · simp [merge_traces, hcol, hw2]
  · simp [merge_traces, hcol, hw2, updateFS]

/-- Witness for C9: round trip of one concrete event through a concrete
write and merge. -/
theorem write_merge_roundtrip_witness :
    writableAll "t.json" = true ∧ writableAll "m.json" = true ∧
    ((merge_traces writableAll (writeTrace writableAll emptyFS [sampleEvent] "t.json").2
        ["t.json"] "m.json").1 = Except.ok "m.json"
     ∧ (merge_traces writableAll (writeTrace writableAll emptyFS [sampleEvent] "t.json").2
        ["t.json"] "m.json").2 "m.json" =
        some (FileData.json (Json.arr ([sampleEvent].map eventToJson)))
     ∧ (∀ e1 e2 : TraceEvent, eventToJson e1 = eventToJson e2 → e1 = e2)) :=
  ⟨rfl, rfl,
   write_merge_roundtrip writableAll emptyFS [sampleEvent] "t.json" "m.json" rfl rfl⟩

/-- Helper: membership in the scan's iteration space bounds both indices. -/
theorem scanPairs_mem (t : Tensor3) (p : Nat × Nat) (hp : p ∈ scanPairs t) :
    p.1 < t.dim0 ∧ p.2 < t.dim1 := by
  simp only [scanPairs, List.mem_flatMap, List.mem_map, List.mem_range] at hp
  obtain ⟨sm, hsm, idx, hidx, hpe⟩ := hp
  subst hpe
  exact ⟨hsm, hidx⟩

/-- Helper: when both slot ids lie inside the event-vector width and the
instruction tensor covers the pair, one loop iteration never raises. -/
theorem buildEvent_ok (timings instructions : Tensor3) (worker : String)
    (startId endId : Nat) (rate : ℚ) (sm idx : Nat)
    (hsm : sm < timings.dim0) (hidx : idx < timings.dim1)
    (hs : startId < timings.dim2) (he : endId < timings.dim2)
    (hi0 : sm < instructions.dim0) (hi1 : idx < instructions.dim1)
    (hi2 : 0 < instructions.dim2) :
    ∃ r, buildEvent timings instructions worker startId endId rate sm idx =
      Except.ok r := by
  have h1 : timings.get? sm idx startId = some (timings.data sm idx startId) := by
    simp [Tensor3.get?, hsm, hidx, hs]
  have h2 : timings.get? sm idx endId = some (timings.data sm idx endId) := by
    simp [Tensor3.get?, hsm, hidx, he]
  have h3 : instructions.get? sm idx 0 = some (instructions.data sm idx 0) := by
    simp [Tensor3.get?, hi0, hi1, hi2]
  rw [buildEvent_eq timings instructions worker startId endId rate sm idx _ _ _ h1 h2 h3]
  split_ifs
  · exact ⟨none, rfl⟩
  · exact ⟨none, rfl⟩
  · exact ⟨some _, rfl⟩

/-- Helper: the scan returns ok when every iteration returns ok. -/
theorem buildEventsAux_ok (timings instructions : Tensor3) (worker : String)
    (startId endId : Nat) (rate : ℚ) (l : List (Nat × Nat))
    (h : ∀ p ∈ l, ∃ r,
      buildEvent timings instructions worker startId endId rate p.1 p.2 = Except.ok r) :
    ∃ evs, buildEventsAux timings instructions worker startId endId rate l =
      Except.ok evs := by
  induction l with
  | nil => exact ⟨[], rfl⟩
  | cons p ps ih =>
    obtain ⟨r, hr⟩ := h p (List.mem_cons_self p ps)
    obtain ⟨evs, hevs⟩ := ih (fun q hq => h q (List.mem_cons_of_mem _ hq))
    cases r with
    | some ev => exact ⟨ev :: evs, by simp only [buildEventsAux, hr, hevs]⟩
    | none => exact ⟨evs, by simp only [buildEventsAux, hr, hevs]⟩

/-- Helper: exhaustive case analysis of a successful registry lookup. -/
theorem workerEvents?_cases (name : String) (s e : Nat)
    (h : workerEvents? name = some (s, e)) :
    (name = "controller" ∧ s = 0 ∧ e = 4) ∨ (name = "loader" ∧ s = 5 ∧ e = 6) ∨
    (name = "launcher" ∧ s = 7 ∧ e = 8) ∨ (name = "storer" ∧ s = 9 ∧ e = 10) ∨
    (name = "consumer" ∧ s = 11 ∧ e = 12) := by
  by_cases h1 : name = "controller"
  · subst h1
    rw [workerEvents?_controller, Option.some.injEq, Prod.mk.injEq] at h
    exact Or.inl ⟨rfl, h.1.symm, h.2.symm⟩
  by_cases h2 : name = "loader"
  · subst h2
    have hl : workerEvents? "loader" = some (5, 6) := by decide
    rw [hl, Option.some.injEq, Prod.mk.injEq] at h
    exact Or.inr (Or.inl ⟨rfl, h.1.symm, h.2.symm⟩)
  by_cases h3 : name = "launcher"
  · subst h3
    have hl : workerEvents? "launcher" = some (7, 8) := by decide
    rw [hl, Option.some.injEq, Prod.mk.injEq] at h
    exact Or.inr (Or.inr (Or.inl ⟨rfl, h.1.symm, h.2.symm⟩))
  by_cases h4 : name = "storer"
  · subst h4
    have hl : workerEvents? "storer" = some (9, 10) := by decide
    rw [hl, Option.some.injEq, Prod.mk.injEq] at h
    exact Or.inr (Or.inr (Or.inr (Or.inl ⟨rfl, h.1.symm, h.2.symm⟩)))
  by_cases h5 : name = "consumer"
  · subst h5
    have hl : workerEvents? "consumer" = some (11, 12) := by decide
    rw [hl, Option.some.injEq, Prod.mk.injEq] at h
    exact Or.inr (Or.inr (Or.inr (Or.inr ⟨rfl, h.1.symm, h.2.symm⟩)))
  · have hn : workerEvents? name = none := by
      apply workerEvents?_eq_none
      simp [h1, h2, h3, h4, h5]
    rw [hn] at h
    cases h

/-- C10: the registry maps consumer to slots (11, 12); on the tensor t12,
whose event vector has exactly the minimum 12 slots, building consumer
events reads slot 12 out of bounds and fails with IndexError, while every
other role's two slot ids are at most 10, so on any 12-slot timing tensor
covered by its instruction tensor its scan stays in bounds and returns ok. -/
theorem consumer_slot_out_of_bounds (timings instructions : Tensor3)
    (name : String) (startId endId : Nat) (rate : ℚ)
    (hname : name ≠ "consumer")
    (hlook : workerEvents? name = some (startId, endId))
    (hdim : timings.dim2 = 12)
    (hi0 : instructions.dim0 = timings.dim0) (hi1 : instructions.dim1 = timings.dim1)
    (hi2 : 1 ≤ instructions.dim2) :
    workerEvents? "consumer" = some (11, 12)
    ∧ buildWorkerEvents t12 i12 "consumer" 10 = Except.error TraceError.IndexError
    ∧ startId ≤ 10 ∧ endId ≤ 10
    ∧ ∃ evs, buildWorkerEvents timings instructions name rate = Except.ok evs := by
  have hslots : startId ≤ 10 ∧ endId ≤ 10 := by
    rcases workerEvents?_cases name startId endId hlook with
      ⟨_, hsv, hev⟩ | ⟨_, hsv, hev⟩ | ⟨_, hsv, hev⟩ | ⟨_, hsv, hev⟩ | ⟨hnv, _, _⟩
    · exact ⟨by omega, by omega⟩
    · exact ⟨by omega, by omega⟩
    · exact ⟨by omega, by omega⟩
    · exact ⟨by omega, by omega⟩
    · exact absurd hnv hname
  have hcons : buildWorkerEvents t12 i12 "consumer" 10 =
      Except.error TraceError.IndexError := by
    have hw : workerEvents? "consumer" = some (11, 12) := by decide
    have hpairs : scanPairs t12 = [(0, 0)] := by decide
    have hb : buildEvent t12 i12 "consumer" 11 12 10 0 0 =
        Except.error TraceError.IndexError := by
      have hga : t12.get? 0 0 11 = some 12 := by decide
      have hgb : t12.get? 0 0 12 = none := by decide
      simp only [buildEvent, hga, hgb]
    simp only [buildWorkerEvents, hw, buildEvents, hpairs, buildEventsAux, hb]
  refine ⟨by decide, hcons, hslots.1, hslots.2, ?_⟩
  simp only [buildWorkerEvents, hlook, buildEvents]
  apply buildEventsAux_ok
  intro p hp
  obtain ⟨hp0, hp1⟩ := scanPairs_mem timings p hp
  exact buildEvent_ok timings instructions name startId endId rate p.1 p.2
    hp0 hp1 (by omega) (by omega) (by omega) (by omega) (by omega)

/-- Witness for C10: the in-bounds half at the controller on a concrete
2 x 3 x 12 tensor pair, alongside the consumer's concrete IndexError. -/
theorem consumer_slot_out_of_bounds_witness :
    ("controller" : String) ≠ "consumer" ∧
    workerEvents? "controller" = some (0, 4) ∧
    wTimings.dim2 = 12 ∧ wInstructions.dim0 = wTimings.dim0 ∧
    wInstructions.dim1 = wTimings.dim1 ∧ 1 ≤ wInstructions.dim2 ∧
    (workerEvents? "consumer" = some (11, 12)
     ∧ buildWorkerEvents t12 i12 "consumer" 10 = Except.error TraceError.IndexError
     ∧ (0 : Nat) ≤ 10 ∧ (4 : Nat) ≤ 10
     ∧ ∃ evs, buildWorkerEvents wTimings wInstructions "controller" 7 = Except.ok evs) :=
  ⟨by decide, by decide, rfl, rfl, rfl, by decide,
   consumer_slot_out_of_bounds wTimings wInstructions "controller" 0 4 7
     (by decide) (by decide) rfl rfl rfl (by decide)⟩

/-- Helper: string append is left-cancellative. -/
theorem string_append_left_cancel (a x y : String) (h : a ++ x = a ++ y) : x = y := by
  have hd : a.data ++ x.data = a.data ++ y.data := by
    rw [← String.data_append, ← String.data_append, h]
  have hxy : x.data = y.data := List.append_cancel_left hd
  cases x
  cases y
  exact congrArg String.mk (by simpa using hxy)

/-- Helper: role paths under one directory are injective in the role name. -/
theorem rolePath_inj (dir a b : String) (h : rolePath dir a = rolePath dir b) : a = b := by
  unfold rolePath at h
  have hd : dir.data ++ ("/timeline_".data ++ (a.data ++ ".json".data)) =
      dir.data ++ ("/timeline_".data ++ (b.data ++ ".json".data)) := by
    have hh := congrArg String.data h
    simpa only [String.data_append, List.append_assoc] using hh
  have h2 : a.data ++ ".json".data = b.data ++ ".json".data :=
    List.append_cancel_left (List.append_cancel_left hd)
  have h3 : a.data = b.data := List.append_cancel_right h2
  cases a
  cases b
  exact congrArg String.mk (by simpa using h3)

/-- Helper: the five registry roles' output paths are pairwise distinct
under every output directory. -/
theorem workerPaths_pairwise (output_dir : String) :
    WORKER_EVENTS.Pairwise
      (fun a b => rolePath output_dir a.1 ≠ rolePath output_dir b.1) := by
  have base : WORKER_EVENTS.Pairwise (fun a b => a.1 ≠ b.1) := by decide
  exact base.imp (fun hab h => hab (rolePath_inj output_dir _ _ h))

/-- Helper: splitting a list by a predicate splits its length. -/
theorem length_filter_split {α : Type} (p : α → Bool) (l : List α) :
    (l.filter p).length + (l.filter (fun a => ! p a)).length = l.length := by
  induction l with
  | nil => rfl
  | cons a l ih =>
    cases h : p a with
    | true =>
      rw [List.filter_cons_of_pos h, List.filter_cons_of_neg (by simp [h])]
      simp only [List.length_cons]
      omega
    | false =>
      rw [List.filter_cons_of_neg (by simp [h]), List.filter_cons_of_pos (by simp [h])]
      simp only [List.length_cons]
      omega

/-- Helper: a successful export returns the output path and writes exactly
the role's built events there, whatever filesystem it starts from. -/
theorem export_success_spec (writable : String → Bool) (fs : FS)
    (timings instructions : Tensor3) (output_dir : String) (rate : ℚ) (name : String)
    (h : exportOutcome writable timings instructions output_dir rate name = true) :
    export_to_perfetto writable fs timings instructions name
        (rolePath output_dir name) rate =
      (Except.ok (rolePath output_dir name),
       updateFS fs (rolePath output_dir name)
         (FileData.json (Json.arr
           ((builtEvents timings instructions name rate).map eventToJson)))) := by
  unfold exportOutcome export_to_perfetto writeTrace at h
  unfold export_to_perfetto writeTrace
  cases hw : workerEvents? name with
  | none =>
    simp [hw] at h
  | some se =>
    simp only [hw] at h ⊢
    cases hb : buildEvents timings instructions name se.1 se.2 rate with
    | error e =>
      simp [hb] at h
    | ok evs =>
      simp only [hb] at h ⊢
      cases hwr : writable (rolePath output_dir name) with
      | false =>
        simp [hwr] at h
      | true =>
        have hbe : builtEvents timings instructions name rate = evs := by
          unfold builtEvents buildWorkerEvents
          simp only [hw, hb]
        rw [hbe]
        simp

/-- Helper: a failed export leaves the filesystem untouched. -/
theorem export_failure_spec (writable : String → Bool) (fs : FS)
    (timings instructions : Tensor3) (output_dir : String) (rate : ℚ) (name : String)
    (h : exportOutcome writable timings instructions output_dir rate name = false) :
    ∃ e, export_to_perfetto writable fs timings instructions name
        (rolePath output_dir name) rate = (Except.error e, fs) := by
  unfold exportOutcome export_to_perfetto writeTrace at h
  unfold export_to_perfetto writeTrace
  cases hw : workerEvents? name with
  | none =>
    simp only [hw]
    exact ⟨TraceError.UnknownWorker name, rfl⟩
  | some se =>
    simp only [hw] at h ⊢
    cases hb : buildEvents timings instructions name se.1 se.2 rate with
    | error e =>
      simp only [hb]
      exact ⟨e, rfl⟩
    | ok evs =>
      simp only [hb] at h ⊢
      cases hwr : writable (rolePath output_dir name) with
      | true =>
        simp [hwr] at h
      | false =>
        refine ⟨TraceError.IOError (rolePath output_dir name), ?_⟩
        simp

/-- Helper: the result mapping of the export loop is exactly one entry per
succeeding registry role, in order. -/
theorem exportAllGo_results (writable : String → Bool) (timings instructions : Tensor3)
    (output_dir : String) (rate : ℚ) (fs : FS) (l : List (String × Nat × Nat)) :
    (exportAllGo writable timings instructions output_dir rate fs l).1 =
      (l.filter (fun en =>
        exportOutcome writable timings instructions output_dir rate en.1)).map
        (fun en => (en.1, rolePath output_dir en.1)) := by
  induction l generalizing fs with
  | nil => rfl
  | cons en rest ih =>
    cases hoc : exportOutcome writable timings instructions output_dir rate en.1 with
    | true =>
      simp only [exportAllGo,
        export_success_spec writable fs timings instructions output_dir rate en.1 hoc]
      rw [ih]
      simp [List.filter_cons, hoc]
    | false =>
      obtain ⟨e, he⟩ :=
        export_failure_spec writable fs timings instructions output_dir rate en.1 hoc
      simp only [exportAllGo, he]
      rw [ih]
      simp [List.filter_cons, hoc]

/-- Helper: the export loop only ever writes at its roles' output paths. -/
theorem exportAllGo_fs_untouched (writable : String → Bool)
    (timings instructions : Tensor3) (output_dir : String) (rate : ℚ) (fs : FS)
    (l : List (String × Nat × Nat)) (q : String)
    (hq : ∀ en ∈ l, q ≠ rolePath output_dir en.1) :
    (exportAllGo writable timings instructions output_dir rate fs l).2 q = fs q := by
  induction l generalizing fs with
  | nil => rfl
  | cons en rest ih =>
    have hqr : ∀ en' ∈ rest, q ≠ rolePath output_dir en'.1 :=
      fun en' hh => hq en' (List.mem_cons_of_mem _ hh)
    cases hoc : exportOutcome writable timings instructions output_dir rate en.1 with
    | true =>
      simp only [exportAllGo,
        export_success_spec writable fs timings instructions output_dir rate en.1 hoc]
      rw [ih _ hqr]
      simp [updateFS, hq en (List.mem_cons_self en rest)]
    | false =>
      obtain ⟨e, he⟩ :=
        export_failure_spec writable fs timings instructions output_dir rate en.1 hoc
      simp only [exportAllGo, he]
      exact ih _ hqr

/-- Helper: a succeeding role's output file, after the whole loop, holds
exactly that role's built events. -/
theorem exportAllGo_writes (writable : String → Bool)
    (timings instructions : Tensor3) (output_dir : String) (rate : ℚ) (fs : FS)
    (l : List (String × Nat × Nat)) (en : String × Nat × Nat)
    (hen : en ∈ l)
    (hsucc : exportOutcome writable timings instructions output_dir rate en.1 = true)
    (hdist : l.Pairwise (fun a b => rolePath output_dir a.1 ≠ rolePath output_dir b.1)) :
    (exportAllGo writable timings instructions output_dir rate fs l).2
        (rolePath output_dir en.1) =
      some (FileData.json (Json.arr
        ((builtEvents timings instructions en.1 rate).map eventToJson))) := by
  induction l generalizing fs with
  | nil => cases hen
  | cons hd rest ih =>
    rcases List.mem_cons.mp hen with rfl | hmem
    · simp only [exportAllGo,
        export_success_spec writable fs timings instructions output_dir rate en.1 hsucc]
      rw [exportAllGo_fs_untouched writable timings instructions output_dir rate _ rest _
        (fun b hb => (List.pairwise_cons.mp hdist).1 b hb)]
      simp [updateFS]
    · cases hoc : exportOutcome writable timings instructions output_dir rate hd.1 with
      | true =>
        simp only [exportAllGo,
          export_success_spec writable fs timings instructions output_dir rate hd.1 hoc]
        exact ih _ hmem (List.pairwise_cons.mp hdist).2
      | false =>
        obtain ⟨e, he⟩ :=
          export_failure_spec writable fs timings instructions output_dir rate hd.1 hoc
        simp only [exportAllGo, he]
        exact ih _ hmem (List.pairwise_cons.mp hdist).2

/-- C8: export_all_workers over the 5 registry roles returns exactly one
(name, "<outputDir>/timeline_<name>.json") entry per succeeding role, in
registry order — so with f failing roles the mapping has 5 - f entries and
no entry for a failing role — every failure is swallowed without aborting
the loop, and each succeeding role's output file ends up holding exactly
its own built events, unaffected by the other roles' failures. -/
theorem export_all_partition (writable : String → Bool) (fs : FS)
    (timings instructions : Tensor3) (output_dir : String) (rate : ℚ) :
    (export_all_workers writable fs timings instructions output_dir rate).1 =
      (WORKER_EVENTS.filter (fun en =>
          exportOutcome writable timings instructions output_dir rate en.1)).map
        (fun en => (en.1, rolePath output_dir en.1))
    ∧ (export_all_workers writable fs timings instructions output_dir rate).1.length +
        (WORKER_EVENTS.filter (fun en =>
          ! exportOutcome writable timings instructions output_dir rate en.1)).length = 5
    ∧ ∀ en ∈ WORKER_EVENTS,
        exportOutcome writable timings instructions output_dir rate en.1 = true →
          (export_all_workers writable fs timings instructions output_dir rate).2
              (rolePath output_dir en.1) =
            some (FileData.json (Json.arr
              ((builtEvents timings instructions en.1 rate).map eventToJson))) := by
  unfold export_all_workers
  refine ⟨exportAllGo_results writable timings instructions output_dir rate fs
    WORKER_EVENTS, ?_, ?_⟩
  · rw [exportAllGo_results writable timings instructions output_dir rate fs WORKER_EVENTS,
      List.length_map]
    exact length_filter_split _ WORKER_EVENTS
  · intro en hen hsucc
    exact exportAllGo_writes writable timings instructions output_dir rate fs
      WORKER_EVENTS en hen hsucc (workerPaths_pairwise output_dir)

/-- Witness for C8: with the loader's output blocked and an all-zero timing
tensor (so the consumer's out-of-bounds read also fails), the controller
still succeeds and its file holds exactly its own (empty) event array. -/
theorem export_all_partition_witness :
    ("controller", 0, 4) ∈ WORKER_EVENTS ∧
    exportOutcome loaderBlocked zeroTimings zeroInstructions "d" 10 "controller" = true ∧
    (export_all_workers loaderBlocked emptyFS zeroTimings zeroInstructions "d" 10).2
        (rolePath "d" "controller") =
      some (FileData.json (Json.arr
        ((builtEvents zeroTimings zeroInstructions "controller" 10).map eventToJson))) :=
  ⟨by decide, by decide,
   (export_all_partition loaderBlocked emptyFS zeroTimings zeroInstructions "d" 10).2.2
     ("controller", 0, 4) (by decide) (by decide)⟩

end Perfetto
